import Mathlib

/-!
A shallow embedding of the `tracing-otel-http` middleware (Rust) in Lean 4,
with theorems checking the natural-language specification against the code.

Source files embedded:
- `src/tracing-otel-http/src/http/http.rs` (`HttpVersion`, `From<Version>`)
- `src/tracing-otel-http/src/http/server_make_span.rs` (`MakeServerSpan`)
- `src/tracing-otel-http/src/http/server_on_response.rs` (`ServerOnResponse`,
  `Latency`, `OpenTelemetryStatusCode`)
- `src/tracing-otel-http/src/grpc/mod.rs` (`TelemetryMiddleware`)

Modelling conventions:
- tracing severities are the `Level` inductive;
- `http::HeaderMap` is a list of (lowercase name, value) pairs with string
  values (a value on which `to_str` succeeds);
- `http::Uri` is its decomposed observable parts: `scheme_str`, `host`,
  `port_u16`, `path`, `query`;
- a tracing span is its name, level, ordered field list and optional parent
  context; `set_parent` is a record update, an untouched parent is `none`;
- the globally registered OpenTelemetry propagator is a parameter
  `propagator : HeaderList → Ctx` over an abstract context type `Ctx`
  (extraction only reads the headers the carrier exposes);
- `span.record` calls and `tracing::event!` emissions are returned as
  explicit lists of operations.
-/

namespace TracingOtel

/-- The five `tracing::Level` severities. -/
inductive Level where
  | ERROR
  | WARN
  | INFO
  | DEBUG
  | TRACE
deriving DecidableEq, Repr

/-- `http::Version`: the five named enumerants plus every other value
(the Rust type is non-exhaustive; the source matches it with a `_` arm). -/
inductive Version where
  | HTTP_09
  | HTTP_10
  | HTTP_11
  | HTTP_2
  | HTTP_3
  | other
deriving DecidableEq, Repr

/-- `HttpVersion` from `src/http/http.rs`: a protocol name and version label. -/
structure HttpVersion where
  protocol : String
  version : String
deriving DecidableEq, Repr

/-- `impl From<Version> for HttpVersion` (`src/http/http.rs` lines 8-38). -/
def HttpVersion.fromVersion (v : Version) : HttpVersion :=
  let protocol := "HTTP"
  match v with
  | .HTTP_09 => { protocol, version := "0.9" }
  | .HTTP_10 => { protocol, version := "1.0" }
  | .HTTP_11 => { protocol, version := "1.1" }
  | .HTTP_2 => { protocol, version := "2" }
  | .HTTP_3 => { protocol, version := "3" }
  | .other => { protocol, version := "unknown" }

/-- A header collection: ordered (name, value) pairs; `http::HeaderMap`
stores names lowercased, so lookups use the lowercase name directly. -/
def HeaderList : Type := List (String × String)

/-- `HeaderMap::get(name)` for the embedding: first pair with the given
(lowercase) name. -/
def headerGet (name : String) (headers : HeaderList) : Option String :=
  (List.find? (fun p => p.1 = name) headers).map Prod.snd

/-- The observable parts of `http::Uri` used by the middleware. -/
structure Uri where
  scheme : Option String
  host : Option String
  port : Option Nat
  path : String
  query : Option String
deriving DecidableEq

/-- An inbound `http::Request`: method, target URI, protocol version,
headers. -/
structure Request where
  method : String
  uri : Uri
  version : Version
  headers : HeaderList

/-- Rust's `str::split(':')` on the underlying character list: splits at every
colon, always yields at least one (possibly empty) segment. -/
def splitColon : List Char → List (List Char)
  | [] => [[]]
  | c :: cs =>
    let rest := splitColon cs
    if c = ':' then [] :: rest
    else
      match rest with
      | [] => [[c]]
      | r :: rs => (c :: r) :: rs

/-- `str::split(':')` lifted to strings. -/
def splitColonStr (s : String) : List String :=
  (splitColon s.toList).map fun l => String.mk l

theorem splitColon_ne_nil (l : List Char) : splitColon l ≠ [] := by
  induction l with
  | nil => simp [splitColon]
  | cons c cs ih =>
    simp only [splitColon]
    split
    · simp
    · match h : splitColon cs with
      | [] => exact absurd h ih
      | r :: rs => simp

theorem splitColonStr_ne_nil (s : String) : splitColonStr s ≠ [] := by
  simp only [splitColonStr, ne_eq, List.map_eq_nil_iff]
  exact splitColon_ne_nil s.toList

/-- Rust's `str::parse::<u16>()`: optional leading `+`, then one or more
ASCII digits, value within `u16` range; anything else is an error. -/
def parseU16 (s : String) : Option Nat :=
  let digits :=
    match s.toList with
    | '+' :: rest => rest
    | cs => cs
  if digits.isEmpty then none
  else if digits.all Char.isDigit then
    let n := digits.foldl (fun a c => a * 10 + (c.toNat - 48)) 0
    if n < 65536 then some n else none
  else none

/-- `MakeServerSpan` configuration (`src/http/server_make_span.rs`). -/
structure MakeServerSpan where
  level : Level
  component : String
  include_headers : Bool
  propagate_context : Bool

/-- `MakeServerSpan::new` (defaults). -/
def MakeServerSpan.new : MakeServerSpan :=
  { level := .DEBUG
    component := "tower.request"
    include_headers := false
    propagate_context := true }

/-- The hostname/port derivation inside `MakeServerSpan::make_span`
(`src/http/server_make_span.rs` lines 82-92). -/
def hostPort (request : Request) : String × Nat :=
  match request.uri.host with
  | some host => (host, request.uri.port.getD 80)
  | none =>
    match headerGet "host" request.headers with
    | some host =>
      let hostname := ((splitColonStr host).get? 0).getD "unknown"
      let port := (parseU16 (((splitColonStr host).get? 1).getD "80")).getD 80
      (hostname, port)
    | none => ("unknown", 0)

/-- A value attached to a span field at creation or by `span.record`.
Structured values (`Display` of a `Uri`, `Debug` of a version or of headers)
keep their structure instead of committing to a rendering. -/
inductive FieldValue where
  | str : String → FieldValue
  | nat : Nat → FieldValue
  | int : Int → FieldValue
  | empty : FieldValue
  | debug : String → FieldValue
  | uriDisplay : Uri → FieldValue
  | versionDebug : Version → FieldValue
deriving DecidableEq

/-- A tracing span: name, severity, ordered creation-time fields, optional
parent context (abstract type `Ctx`); `none` means `set_parent` never ran. -/
structure Span (Ctx : Type) where
  name : String
  level : Level
  fields : List (String × FieldValue)
  parent : Option Ctx

/-- `MakeServerSpan::make_span` (`src/http/server_make_span.rs` lines 81-151).
`propagator` is the globally configured OpenTelemetry propagator's `extract`,
viewed as a function of the headers the `PropagationContext` carrier exposes.
The Rust macro expansion is one span construction per severity; each branch
builds the same field list. -/
def MakeServerSpan.make_span {Ctx : Type} (propagator : HeaderList → Ctx)
    (self : MakeServerSpan) (request : Request) : Span Ctx :=
  let hp := hostPort request
  let hostname := hp.1
  let port := hp.2
  let http_version := HttpVersion.fromVersion request.version
  let user_agent := (headerGet "user-agent" request.headers).getD ""
  let mk : Level → Span Ctx := fun lvl =>
    { name := "request"
      level := lvl
      fields :=
        [("component", .str self.component),
         ("method", .str request.method),
         ("uri", .uriDisplay request.uri),
         ("version", .versionDebug request.version),
         ("headers", .empty),
         ("otel.kind", .str "server"),
         ("otel.status_code", .empty),
         ("http.host", .str hostname),
         ("http.request.method", .str request.method),
         ("http.route", .str request.uri.path),
         ("http.path_group", .empty),
         ("http.response.status_code", .empty),
         ("network.protocol.name", .str http_version.protocol),
         ("network.protocol.version", .str http_version.version),
         ("network.transport", .str "tcp"),
         ("server.addresss", .str hostname),
         ("server.port", .nat port),
         ("telemetry.sdk.language", .str "rust"),
         ("url.scheme", .str (request.uri.scheme.getD "httx")),
         ("url.path", .str request.uri.path),
         ("url.query", .str (request.uri.query.getD "")),
         ("user_agent.original", .debug user_agent)]
      parent := none }
  let span :=
    match self.level with
    | .ERROR => mk .ERROR
    | .WARN => mk .WARN
    | .INFO => mk .INFO
    | .DEBUG => mk .DEBUG
    | .TRACE => mk .TRACE
  if self.propagate_context then
    { span with parent := some (propagator request.headers) }
  else
    span

/-- `std::time::Duration`: whole seconds plus a sub-second nanosecond part. -/
structure Duration where
  secs : Nat
  nanos : Nat
  nanos_lt : nanos < 1000000000

/-- `Duration::as_nanos`. -/
def Duration.as_nanos (d : Duration) : Nat := d.secs * 1000000000 + d.nanos

/-- `Duration::as_micros`. -/
def Duration.as_micros (d : Duration) : Nat := d.secs * 1000000 + d.nanos / 1000

/-- `Duration::as_millis`. -/
def Duration.as_millis (d : Duration) : Nat := d.secs * 1000 + d.nanos / 1000000

/-- Fuel-bounded search for the floor of the base-2 logarithm of `a / b`
when `b ≤ a`: the largest `k` with `b * 2 ^ k ≤ a`. -/
def floorLog2Aux : Nat → Nat → Nat → Nat
  | 0, _, _ => 0
  | fuel + 1, a, b => if 2 * b ≤ a then floorLog2Aux fuel a (2 * b) + 1 else 0

/-- Fuel-bounded search for the smallest `k ≥ 1` with `b ≤ a * 2 ^ k`, used
when `a < b` (the fraction is below one). -/
def ceilDenAux : Nat → Nat → Nat → Nat
  | 0, _, _ => 0
  | fuel + 1, a, b => if b ≤ 2 * a then 1 else ceilDenAux fuel (2 * a) b + 1

/-- Floor of the base-2 logarithm of the positive fraction `a / b`. The fuel
1100 covers every binary exponent a finite IEEE double can have, and every
value this program feeds in (seconds up to u64, nanoseconds over 10^9). -/
def floorLog2Frac (a b : Nat) : Int :=
  if b ≤ a then (floorLog2Aux 1100 a b : Int)
  else -(ceilDenAux 1100 a b : Int)

/-- Round the fraction `p / q` (with `q ≠ 0`) to the nearest integer, ties to
even: IEEE round-to-nearest-even at integer granularity. -/
def roundHalfEvenFrac (p q : Nat) : Nat :=
  let f := p / q
  let r := p % q
  if 2 * r < q then f
  else if q < 2 * r then f + 1
  else if f % 2 = 0 then f else f + 1

/-- IEEE-754 binary64 rounding of the nonnegative fraction `a / b`:
round-to-nearest-even at 53 significant bits, returned as a significand and
binary exponent whose value is `m * 2 ^ e`. Overflow to infinity and
subnormals are outside the range this program produces and are not
modelled. -/
def roundF64Frac (a b : Nat) : Nat × Int :=
  if a = 0 then (0, 0)
  else
    let e := floorLog2Frac a b - 52
    if 0 ≤ e then (roundHalfEvenFrac a (b * 2 ^ e.toNat), e)
    else (roundHalfEvenFrac (a * 2 ^ (-e).toNat) b, e)

/-- A dyadic significand-exponent pair viewed as a fraction of naturals. -/
def fracOfDyadic (me : Nat × Int) : Nat × Nat :=
  if 0 ≤ me.2 then (me.1 * 2 ^ me.2.toNat, 1) else (me.1, 2 ^ (-me.2).toNat)

/-- Exact sum of two fractions of naturals. -/
def fracAdd (x y : Nat × Nat) : Nat × Nat :=
  (x.1 * y.2 + y.1 * x.2, x.2 * y.2)

/-- Exact quotient of two fractions of naturals. -/
def fracDiv (x y : Nat × Nat) : Nat × Nat :=
  (x.1 * y.2, x.2 * y.1)

/-- A dyadic significand-exponent pair as the rational it denotes. -/
def dyadicToQ (me : Nat × Int) : ℚ :=
  if 0 ≤ me.2 then (me.1 : ℚ) * 2 ^ me.2.toNat
  else (me.1 : ℚ) / 2 ^ (-me.2).toNat

/-- `Duration::as_secs_f64` as the IEEE double the Rust expression
`secs as f64 + (nanos as f64) / 1e9` evaluates to: each conversion, the
division and the addition round to nearest-even (the constant 1e9 converts
exactly). The result is the double's significand-exponent pair. -/
def Duration.as_secs_f64_repr (d : Duration) : Nat × Int :=
  let r1 := roundF64Frac d.secs 1
  let r2 := roundF64Frac d.nanos 1
  let r3 :=
    let q := fracDiv (fracOfDyadic r2) (1000000000, 1)
    roundF64Frac q.1 q.2
  let s := fracAdd (fracOfDyadic r1) (fracOfDyadic r3)
  roundF64Frac s.1 s.2

/-- The exact rational value of the double `Duration::as_secs_f64` returns. -/
def Duration.as_secs_f64 (d : Duration) : ℚ :=
  dyadicToQ d.as_secs_f64_repr

/-- `tower_http::LatencyUnit`: the four named enumerants plus every other
value (the Rust enum is non-exhaustive; the `Display` impl has a `_` arm). -/
inductive LatencyUnit where
  | Seconds
  | Millis
  | Micros
  | Nanos
  | other
deriving DecidableEq, Repr

/-- `impl fmt::Display for Latency` (`src/http/server_on_response.rs` lines
38-48), as a total string function; the seconds branch prints the `f64`
value, rendered here from the exact rational that double denotes. -/
def latencyDisplay (unit : LatencyUnit) (duration : Duration) : String :=
  match unit with
  | .Seconds => toString duration.as_secs_f64 ++ " s"
  | .Millis => toString duration.as_millis ++ " ms"
  | .Micros => toString duration.as_micros ++ " μs"
  | .Nanos => toString duration.as_nanos ++ " ns"
  | .other => toString duration.as_millis ++ " ms"

/-- `OpenTelemetryStatusCode` (`src/http/server_on_response.rs` lines 9-12). -/
inductive OpenTelemetryStatusCode where
  | Ok
  | Error
deriving DecidableEq, Repr

/-- Its `Debug` rendering (lines 14-21). -/
def OpenTelemetryStatusCode.debugStr : OpenTelemetryStatusCode → String
  | .Ok => "OK"
  | .Error => "ERROR"

/-- An HTTP response: status code plus headers. -/
structure Response where
  status : Nat
  headers : HeaderList

/-- `StatusCode::is_server_error` from the `http` crate: the 500-599 class. -/
def isServerError (status : Nat) : Bool := 500 ≤ status && status < 600

/-- `impl From<&Response<B>> for OpenTelemetryStatusCode` (lines 23-31). -/
def OpenTelemetryStatusCode.fromResponse (response : Response) :
    OpenTelemetryStatusCode :=
  if isServerError response.status then .Error else .Ok

/-- The free function `status` (lines 137-139): `Some(status as i32)`. -/
def statusFn (res : Response) : Option Int := some (res.status : Int)

/-- `ServerOnResponse` configuration (`src/http/server_on_response.rs`). -/
structure ServerOnResponse where
  level : Level
  latency_unit : LatencyUnit
  include_headers : Bool

/-- `ServerOnResponse::default` = `ServerOnResponse::new`. -/
def ServerOnResponse.new : ServerOnResponse :=
  { level := .INFO, latency_unit := .Millis, include_headers := false }

/-- Builder `ServerOnResponse::level` (named `withLevel` here because the
field is already called `level`). -/
def ServerOnResponse.withLevel (self : ServerOnResponse) (lvl : Level) :
    ServerOnResponse :=
  { self with level := lvl }

/-- Builder `ServerOnResponse::latency_unit`. -/
def ServerOnResponse.withLatencyUnit (self : ServerOnResponse)
    (unit : LatencyUnit) : ServerOnResponse :=
  { self with latency_unit := unit }

/-- Builder `ServerOnResponse::include_headers`. -/
def ServerOnResponse.withIncludeHeaders (self : ServerOnResponse)
    (b : Bool) : ServerOnResponse :=
  { self with include_headers := b }

/-- One `span.record(field, value)` call. -/
structure RecordOp where
  field : String
  value : FieldValue
deriving DecidableEq

/-- One `tracing::event!` emission: severity, the `%latency` string, the
optional debug-formatted response headers, the message. -/
structure Event where
  level : Level
  latency : String
  response_headers : Option HeaderList
  message : String

/-- `ServerOnResponse::on_response` (`src/http/server_on_response.rs` lines
111-135): the `span.record` calls it performs and the events it emits, in
order. -/
def ServerOnResponse.on_response (self : ServerOnResponse)
    (response : Response) (latency : Duration) :
    List RecordOp × List Event :=
  let latencyStruct := latencyDisplay self.latency_unit latency
  let response_headers :=
    if self.include_headers then some response.headers else none
  ([{ field := "otel.status_code"
      value := .debug (OpenTelemetryStatusCode.fromResponse response).debugStr },
    { field := "status"
      value := .int ((statusFn response).getD 0) },
    { field := "http.status_code"
      value := .nat response.status }],
   [{ level := .INFO
      latency := latencyStruct
      response_headers := response_headers
      message := "finished processing request" }])

/-- `create_server_span` (`src/grpc/mod.rs` lines 68-81): the `tonic` span,
parent always set from the propagator (no opt-out). -/
def create_server_span {Ctx : Type} (propagator : HeaderList → Ctx)
    (header_map : HeaderList) : Span Ctx :=
  let span : Span Ctx :=
    { name := "tonic"
      level := .INFO
      fields :=
        [("otel.kind", .str "server"),
         ("otel.status_code", .empty),
         ("http.response.status_code", .empty),
         ("foo", .empty)]
      parent := none }
  { span with parent := some (propagator header_map) }

/-- The outcome handling of `TelemetryMiddleware::call` (`src/grpc/mod.rs`
lines 42-65), applied to the already-resolved downstream result: the
`span.record` calls performed on the span and the value returned to the
caller. `StatusCode`'s `Debug` renders the bare number. -/
def TelemetryMiddleware.callOutcome {E : Type}
    (result : Except E Response) : List RecordOp × Except E Response :=
  match result with
  | .ok response =>
    ([{ field := "otel.status_code", value := .str "ok" },
      { field := "http.response.status_code"
        value := .debug (toString response.status) }],
     .ok response)
  | .error err =>
    ([{ field := "otel.status_code", value := .str "error" }],
     .error err)

/-- The names a span declares at creation, in declaration order. -/
def Span.fieldNames {Ctx : Type} (s : Span Ctx) : List String :=
  s.fields.map Prod.fst

/-- The literal list of field names `make_span` declares. -/
def serverSpanFieldNames : List String :=
  ["component", "method", "uri", "version", "headers", "otel.kind",
   "otel.status_code", "http.host", "http.request.method", "http.route",
   "http.path_group", "http.response.status_code", "network.protocol.name",
   "network.protocol.version", "network.transport", "server.addresss",
   "server.port", "telemetry.sdk.language", "url.scheme", "url.path",
   "url.query", "user_agent.original"]

theorem make_span_fieldNames {Ctx : Type} (propagator : HeaderList → Ctx)
    (self : MakeServerSpan) (request : Request) :
    (MakeServerSpan.make_span propagator self request).fieldNames =
      serverSpanFieldNames := by
  rcases self with ⟨lvl, comp, ih, pc⟩
  cases pc <;> cases lvl <;> rfl

/-- Claim C1: `make_span` is supposed to declare the OpenTelemetry contract
field names listed in the spec, in particular `server.address`. The code
declares every other listed name under exactly that spelling, but spells the
server-address field `server.addresss` (three s), and declares no field
named `server.address`. -/
theorem claim_C1_server_address_field {Ctx : Type}
    (propagator : HeaderList → Ctx) (self : MakeServerSpan)
    (request : Request) :
    ("otel.kind" ∈ (MakeServerSpan.make_span propagator self request).fieldNames ∧
     "otel.status_code" ∈ (MakeServerSpan.make_span propagator self request).fieldNames ∧
     "http.request.method" ∈ (MakeServerSpan.make_span propagator self request).fieldNames ∧
     "http.route" ∈ (MakeServerSpan.make_span propagator self request).fieldNames ∧
     "http.response.status_code" ∈ (MakeServerSpan.make_span propagator self request).fieldNames ∧
     "network.protocol.name" ∈ (MakeServerSpan.make_span propagator self request).fieldNames ∧
     "network.protocol.version" ∈ (MakeServerSpan.make_span propagator self request).fieldNames ∧
     "network.transport" ∈ (MakeServerSpan.make_span propagator self request).fieldNames ∧
     "server.port" ∈ (MakeServerSpan.make_span propagator self request).fieldNames ∧
     "url.scheme" ∈ (MakeServerSpan.make_span propagator self request).fieldNames ∧
     "url.path" ∈ (MakeServerSpan.make_span propagator self request).fieldNames ∧
     "url.query" ∈ (MakeServerSpan.make_span propagator self request).fieldNames ∧
     "user_agent.original" ∈ (MakeServerSpan.make_span propagator self request).fieldNames) ∧
    "server.addresss" ∈ (MakeServerSpan.make_span propagator self request).fieldNames ∧
    "server.address" ∉ (MakeServerSpan.make_span propagator self request).fieldNames := by
  rw [make_span_fieldNames]
  decide

/-- Claim C4: the version-to-label table, with every value other than the
five named enumerants mapping to ("HTTP", "unknown") rather than erroring. -/
theorem claim_C4_version_table :
    HttpVersion.fromVersion .HTTP_09 = { protocol := "HTTP", version := "0.9" } ∧
    HttpVersion.fromVersion .HTTP_10 = { protocol := "HTTP", version := "1.0" } ∧
    HttpVersion.fromVersion .HTTP_11 = { protocol := "HTTP", version := "1.1" } ∧
    HttpVersion.fromVersion .HTTP_2 = { protocol := "HTTP", version := "2" } ∧
    HttpVersion.fromVersion .HTTP_3 = { protocol := "HTTP", version := "3" } ∧
    (∀ v : Version, v ≠ .HTTP_09 → v ≠ .HTTP_10 → v ≠ .HTTP_11 →
      v ≠ .HTTP_2 → v ≠ .HTTP_3 →
      HttpVersion.fromVersion v = { protocol := "HTTP", version := "unknown" }) := by
  refine ⟨rfl, rfl, rfl, rfl, rfl, ?_⟩
  intro v h1 h2 h3 h4 h5
  cases v <;> first | rfl | simp_all

theorem claim_C4_version_table_witness :
    HttpVersion.fromVersion .other = { protocol := "HTTP", version := "unknown" } :=
  claim_C4_version_table.2.2.2.2.2 .other
    (by decide) (by decide) (by decide) (by decide) (by decide)

/-- Claim C10: the span's `url.scheme` field is the request URI's scheme
when present, and the literal "httx" when the URI carries no scheme. -/
theorem claim_C10_url_scheme {Ctx : Type} (propagator : HeaderList → Ctx)
    (self : MakeServerSpan) (request : Request) :
    List.lookup "url.scheme" (MakeServerSpan.make_span propagator self request).fields =
      some (.str (match request.uri.scheme with
                  | some s => s
                  | none => "httx")) := by
  rcases self with ⟨lvl, comp, ih, pc⟩
  rcases request with ⟨m, ⟨sch, host, port, path, query⟩, v, hs⟩
  cases pc <;> cases lvl <;> cases sch <;> rfl

/-- Claim C6: with `propagate_context` false the span has no parent set; with
it true the parent is exactly the context the globally configured propagator
extracts from the request's headers. -/
theorem claim_C6_propagation {Ctx : Type} (propagator : HeaderList → Ctx)
    (self : MakeServerSpan) (request : Request) :
    (self.propagate_context = false →
      (MakeServerSpan.make_span propagator self request).parent = none) ∧
    (self.propagate_context = true →
      (MakeServerSpan.make_span propagator self request).parent =
        some (propagator request.headers)) := by
  rcases self with ⟨lvl, comp, ih, pc⟩
  constructor <;> intro h <;> subst h <;> cases lvl <;> rfl

/-- A concrete request with no scheme, no authority and no headers. -/
def reqEx : Request :=
  { method := "GET"
    uri := { scheme := none, host := none, port := none, path := "/", query := none }
    version := .HTTP_11
    headers := [] }

theorem claim_C6_propagation_witness :
    (MakeServerSpan.make_span (fun _ => (7 : Nat))
        { MakeServerSpan.new with propagate_context := false } reqEx).parent = none ∧
    (MakeServerSpan.make_span (fun _ => (7 : Nat)) MakeServerSpan.new reqEx).parent =
      some 7 :=
  ⟨(claim_C6_propagation (fun _ => (7 : Nat))
      { MakeServerSpan.new with propagate_context := false } reqEx).1 rfl,
   (claim_C6_propagation (fun _ => (7 : Nat)) MakeServerSpan.new reqEx).2 rfl⟩

/-- The hostname/port derivation as claim C3 words it: an explicit authority
on the request URI wins (port defaulting to 80 when absent); else a present
Host header yields its pre-colon segment as hostname and its post-colon
segment parsed as a number as port, defaulting to 80 when the segment is
absent or unparseable; else the literal "unknown" and port 0. -/
def hostPortSpec (request : Request) : String × Nat :=
  match request.uri.host with
  | some h =>
    (h, match request.uri.port with
        | some p => p
        | none => 80)
  | none =>
    match headerGet "host" request.headers with
    | some v =>
      let segs := splitColonStr v
      let hostname := segs.headD "unknown"
      let port :=
        match segs.get? 1 with
        | none => 80
        | some s =>
          match parseU16 s with
          | some p => p
          | none => 80
      (hostname, port)
    | none => ("unknown", 0)

theorem parseU16_eighty : parseU16 "80" = some 80 := by decide

/-- Claim C3: the code's hostname/port derivation agrees with the priority
order the claim states, on every request. -/
theorem claim_C3_host_port_priority (request : Request) :
    hostPort request = hostPortSpec request := by
  rcases request with ⟨m, ⟨sch, host, port, path, query⟩, v, hs⟩
  unfold hostPort hostPortSpec
  cases host with
  | some h => cases port <;> rfl
  | none =>
    simp only
    cases hh : headerGet "host" hs with
    | none => rfl
    | some hv =>
      cases hsplit : splitColonStr hv with
      | nil => exact absurd hsplit (splitColonStr_ne_nil hv)
      | cons a rest =>
        cases rest with
        | nil => simp [hsplit, List.headD, parseU16_eighty]
        | cons b rest2 =>
          cases hp : parseU16 b <;> simp [hsplit, List.headD, hp]

/-- Claim C2: `on_response` is supposed to record only onto fields that
`make_span` pre-registered. It records `otel.status_code` (declared), but
also `status` and `http.status_code`, neither of which `make_span` declares
(the declared empty status field is `http.response.status_code`). -/
theorem claim_C2_recorded_vs_declared {Ctx : Type}
    (propagator : HeaderList → Ctx) (self : MakeServerSpan)
    (request : Request) (sor : ServerOnResponse) (response : Response)
    (d : Duration) :
    ((sor.on_response response d).1.map RecordOp.field) =
      ["otel.status_code", "status", "http.status_code"] ∧
    "otel.status_code" ∈ (MakeServerSpan.make_span propagator self request).fieldNames ∧
    "status" ∉ (MakeServerSpan.make_span propagator self request).fieldNames ∧
    "http.status_code" ∉ (MakeServerSpan.make_span propagator self request).fieldNames := by
  refine ⟨rfl, ?_, ?_, ?_⟩ <;> rw [make_span_fieldNames] <;> decide

/-- Claim C5: per completed downstream call, `TelemetryMiddleware::call`
records the outcome field exactly once; success records "ok" plus the
response status code and returns the response; failure records "error",
records no response field, and returns the error unchanged. -/
theorem claim_C5_call_outcome {E : Type} (result : Except E Response) :
    (TelemetryMiddleware.callOutcome result).2 = result ∧
    ((TelemetryMiddleware.callOutcome result).1.countP
        (fun op => op.field == "otel.status_code")) = 1 ∧
    (match result with
     | .ok response =>
        (TelemetryMiddleware.callOutcome result).1 =
          [{ field := "otel.status_code", value := .str "ok" },
           { field := "http.response.status_code",
             value := .debug (toString response.status) }]
     | .error _ =>
        (TelemetryMiddleware.callOutcome result).1 =
          [{ field := "otel.status_code", value := .str "error" }]) := by
  cases result <;> simp [TelemetryMiddleware.callOutcome]

/-- Claim C7: `ServerOnResponse` classifies the outcome as error iff the
status code is in the 5xx class; at status 503 it records the "ERROR"
classification and status code 503 and emits exactly one completion event. -/
theorem claim_C7_error_classification (response : Response)
    (self : ServerOnResponse) (d : Duration) :
    (OpenTelemetryStatusCode.fromResponse response = .Error ↔
      (500 ≤ response.status ∧ response.status < 600)) ∧
    (response.status = 503 →
      ({ field := "otel.status_code", value := .debug "ERROR" } : RecordOp) ∈
        (self.on_response response d).1 ∧
      ({ field := "status", value := .int 503 } : RecordOp) ∈
        (self.on_response response d).1 ∧
      ({ field := "http.status_code", value := .nat 503 } : RecordOp) ∈
        (self.on_response response d).1 ∧
      (self.on_response response d).2.length = 1) := by
  rcases response with ⟨st, rh⟩
  constructor
  · simp only [OpenTelemetryStatusCode.fromResponse, isServerError]
    split_ifs with h <;> simp_all [Bool.and_eq_true, decide_eq_true_eq]
  · intro h503
    simp only at h503
    subst h503
    refine ⟨?_, ?_, ?_, rfl⟩ <;>
      simp [ServerOnResponse.on_response, OpenTelemetryStatusCode.fromResponse,
        isServerError, OpenTelemetryStatusCode.debugStr, statusFn]

/-- A concrete 503 response with no headers. -/
def respEx503 : Response := { status := 503, headers := [] }

/-- The zero duration. -/
def durZero : Duration := { secs := 0, nanos := 0, nanos_lt := by norm_num }

theorem claim_C7_error_classification_witness :
    ({ field := "status", value := .int 503 } : RecordOp) ∈
      (ServerOnResponse.new.on_response respEx503 durZero).1 :=
  ((claim_C7_error_classification respEx503 ServerOnResponse.new durZero).2
    rfl).2.1

/-- A duration of one and a half seconds: its f64 seconds value is exact. -/
def durEx : Duration := { secs := 1, nanos := 500000000, nanos_lt := by norm_num }

/-- A duration whose whole seconds exceed f64 integer precision: 2^54 + 1
seconds rounds to 2^54 under `as_secs_f64`. -/
def durHuge : Duration :=
  { secs := 18014398509481985, nanos := 0, nanos_lt := by norm_num }

/-- Claim C8, counterexample to the seconds clause as stated: at 2^54 + 1
whole seconds the program's f64 seconds value rounds to 2^54, so the millis
value is not the floor of the seconds value scaled by 1000 — they differ by
1000. -/
theorem claim_C8_seconds_f64_counterexample :
    durHuge.as_millis ≠ ⌊durHuge.as_secs_f64 * 1000⌋₊ := by
  have hrepr : durHuge.as_secs_f64_repr = (4503599627370496, 2) := by decide
  have hval : durHuge.as_secs_f64 = ((18014398509481984 : ℕ) : ℚ) := by
    rw [Duration.as_secs_f64, hrepr]
    have ht : Int.toNat 2 = 2 := rfl
    norm_num [dyadicToQ, ht]
  have hmul : ((18014398509481984 : ℕ) : ℚ) * 1000 =
      ((18014398509481984000 : ℕ) : ℚ) := by norm_num
  rw [hval, hmul, Nat.floor_natCast]
  decide

/-- Claim C8 as amended: latency formatting is total over every duration (it
always produces a string with the unit suffix, zero included); the micros
value is the nanos value divided by 1000 and the millis value the micros
value divided by 1000 (integer truncation); and the millis value is the
floor of the seconds value scaled by a further 1000 whenever the f64 seconds
value is exact (no rounding loss), which fails for durations beyond f64
precision. -/
theorem claim_C8_latency_scaling (unit : LatencyUnit) (d : Duration) :
    (∃ s suffix, latencyDisplay unit d = s ++ suffix ∧ suffix ≠ "") ∧
    d.as_micros = d.as_nanos / 1000 ∧
    d.as_millis = d.as_micros / 1000 ∧
    (d.as_secs_f64 = (d.as_nanos : ℚ) / 1000000000 →
      d.as_millis = ⌊d.as_secs_f64 * 1000⌋₊) := by
  refine ⟨?_, ?_, ?_, ?_⟩
  · cases unit
    · exact ⟨toString d.as_secs_f64, " s", rfl, by decide⟩
    · exact ⟨toString d.as_millis, " ms", rfl, by decide⟩
    · exact ⟨toString d.as_micros, " μs", rfl, by decide⟩
    · exact ⟨toString d.as_nanos, " ns", rfl, by decide⟩
    · exact ⟨toString d.as_millis, " ms", rfl, by decide⟩
  · have h1 : d.as_nanos = d.nanos + d.secs * 1000000 * 1000 := by
      unfold Duration.as_nanos; ring
    rw [Duration.as_micros, h1,
      Nat.add_mul_div_right _ _ (by norm_num : (0 : ℕ) < 1000)]
    omega
  · have h1 : d.as_micros = d.nanos / 1000 + d.secs * 1000 * 1000 := by
      unfold Duration.as_micros; ring
    rw [Duration.as_millis, h1,
      Nat.add_mul_div_right _ _ (by norm_num : (0 : ℕ) < 1000)]
    omega
  · intro hexact
    rw [hexact]
    have h2 : (d.as_nanos : ℚ) / 1000000000 * 1000 =
        (d.as_nanos : ℚ) / ((1000000 : ℕ) : ℚ) := by
      push_cast
      field_simp
      ring
    rw [h2, Nat.floor_div_nat, Nat.floor_natCast]
    unfold Duration.as_millis Duration.as_nanos
    omega

theorem claim_C8_latency_scaling_witness :
    durEx.as_millis = ⌊durEx.as_secs_f64 * 1000⌋₊ :=
  (claim_C8_latency_scaling .Seconds durEx).2.2.2 (by
    have hrepr : durEx.as_secs_f64_repr = (6755399441055744, -52) := by decide
    have hnanos : durEx.as_nanos = 1500000000 := by decide
    rw [Duration.as_secs_f64, hrepr, hnanos]
    have ht : Int.toNat 52 = 52 := rfl
    norm_num [dyadicToQ, ht])

/-- Claim C9: whatever level the builder setter configures, `on_response`
emits exactly one completion event, at the fixed Level.INFO severity, with
the fixed message, the formatted latency, and the response headers only when
`include_headers` is enabled. -/
theorem claim_C9_event_fixed_severity (self : ServerOnResponse) (lvl : Level)
    (response : Response) (d : Duration) :
    (ServerOnResponse.on_response (self.withLevel lvl) response d).2 =
      [{ level := .INFO
         latency := latencyDisplay self.latency_unit d
         response_headers :=
           if self.include_headers then some response.headers else none
         message := "finished processing request" }] := by
  rcases self with ⟨l, u, ih⟩
  rfl

end TracingOtel
